import Mathlib

/-!
Verification development for the multi-provider LLM request layer
(`app/services/llm.py`): provider registry, sliding-window usage tracking,
in-memory and Redis-backed rate-limit stores, the per-attempt dispatch
(`_try_provider`) and the failover loop (`create_completion`).

Clock values (Python `time.time()`) are modelled as integers: every use in
the source is an order comparison or an offset by an integer number of
seconds, so the embedding is faithful on that fragment.  The one fractional
constant in the subsystem, the 0.5-second inter-attempt delay, is kept as a
named rational constant.
-/

set_option autoImplicit false

/-- The `Provider` enum of `llm.py`. -/
inductive Provider where
  | openrouter
  | groq
  | google_studio
  | cerebras
  | openai
deriving DecidableEq

/-- Embeds `Provider.value`: the string payload of each enum member. -/
def Provider.value : Provider → String
  | .openrouter => "openrouter"
  | .groq => "groq"
  | .google_studio => "google_studio"
  | .cerebras => "cerebras"
  | .openai => "openai"

/-- The `ProviderConfig` dataclass: provider identity, endpoint, credential,
default model, optional rate limits and retry policy. -/
structure ProviderConfig where
  name : Provider
  base_url : String
  api_key : String
  model : String
  requests_per_minute : Option Nat := none
  requests_per_day : Option Nat := none
  tokens_per_minute : Option Nat := none
  max_retries : Nat := 3
  retry_delay : ℚ := 1
deriving DecidableEq

/-- The `UsageTracker` dataclass: two deques of request timestamps
(minute window and day window) and an optional failed-until timestamp.
The per-tracker `Lock` serialises accesses in Python; here every operation
is a pure state transformer on one tracker, which is the serialised view. -/
structure UsageTracker where
  minute_requests : List ℤ := []
  day_requests : List ℤ := []
  failed_until : Option ℤ := none
deriving DecidableEq

/-- Embeds `UsageTracker.add_request`: append a timestamp to both windows. -/
def UsageTracker.add_request (t : UsageTracker) (timestamp : ℤ) : UsageTracker :=
  { t with
    minute_requests := t.minute_requests ++ [timestamp]
    day_requests := t.day_requests ++ [timestamp] }

/-- One `while` loop of `cleanup_old_requests`: pop entries from the left of
the deque while the front entry is older than `window` seconds before
`current_time`. -/
def dropOld (window current_time : ℤ) : List ℤ → List ℤ
  | [] => []
  | x :: xs => if current_time - x > window then dropOld window current_time xs else x :: xs

/-- Embeds `UsageTracker.cleanup_old_requests`: purge entries older than 1 minute
from the minute window and older than 24 hours from the day window. -/
def UsageTracker.cleanup_old_requests (t : UsageTracker) (current_time : ℤ) : UsageTracker :=
  { t with
    minute_requests := dropOld 60 current_time t.minute_requests
    day_requests := dropOld 86400 current_time t.day_requests }

/-- Embeds `UsageTracker.get_counts`: purge, then return the purged tracker together
with the (minute, day) counts.  The returned tracker records the in-place
mutation performed by the purge. -/
def UsageTracker.get_counts (t : UsageTracker) (current_time : ℤ) :
    UsageTracker × Nat × Nat :=
  let t' := t.cleanup_old_requests current_time
  (t', t'.minute_requests.length, t'.day_requests.length)

/-- Embeds `UsageTracker.mark_failed`: set failed-until to `time.time() + duration`;
the current time is passed explicitly. -/
def UsageTracker.mark_failed (t : UsageTracker) (now : ℤ) (duration : Nat) : UsageTracker :=
  { t with failed_until := some (now + duration) }

/-- Embeds `UsageTracker.is_failed`: true while `time.time() < failed_until`
(`now` passed explicitly); once the cooldown has expired the marker is
cleared as a side effect and the call returns false. -/
def UsageTracker.is_failed (t : UsageTracker) (now : ℤ) : UsageTracker × Bool :=
  match t.failed_until with
  | none => (t, false)
  | some fu => if now ≥ fu then ({ t with failed_until := none }, false) else (t, true)

/-- Python truthiness-guarded limit test `if limit and count >= limit`:
an unset limit (`None`) and a zero limit are both falsy, hence unlimited. -/
def limitReached : Option Nat → Nat → Bool
  | none, _ => false
  | some m, c => if m = 0 then false else decide (m ≤ c)

/-- The in-memory rate-limit decision shared by
`ProviderManager._check_rate_limit` (in-memory branch) and
`RedisStore._check_rate_limit_memory`: read the purged counts, then test the
per-minute and per-day ceilings in order.  Returns the mutated tracker
(the purge is an in-place deque mutation in Python) with the verdict. -/
def check_rate_limit_memory (t : UsageTracker) (config : ProviderConfig) (now : ℤ) :
    UsageTracker × Bool :=
  let r := t.get_counts now
  if limitReached config.requests_per_minute r.2.1 then (r.1, false)
  else if limitReached config.requests_per_day r.2.2 then (r.1, false)
  else (r.1, true)

/-- Assignment into a Python dict rendered on an association list:
overwrite the existing binding of the key, or append a new one. -/
def dictInsert {α : Type} (key : String) (val : α) :
    List (String × α) → List (String × α)
  | [] => [(key, val)]
  | (k, v) :: rest =>
    if k = key then (key, val) :: rest else (k, v) :: dictInsert key val rest

/-- The `InMemoryStore` class: a dictionary from `provider.value` to its
`UsageTracker`.  `get_tracker` lazily creates an empty tracker, so a lookup
miss reads the same state as a freshly created tracker. -/
structure InMemoryStore where
  trackers : List (String × UsageTracker) := []
deriving DecidableEq

/-- Embeds `InMemoryStore.get_tracker`: the tracker stored under `provider.value`,
or a freshly created one when absent. -/
def InMemoryStore.get_tracker (s : InMemoryStore) (provider : Provider) : UsageTracker :=
  match s.trackers.lookup provider.value with
  | some t => t
  | none => {}

/-- Write back the (in-place, in Python) mutation of one provider's tracker:
replace the entry under `provider.value`, creating it when absent. -/
def InMemoryStore.set_tracker (s : InMemoryStore) (provider : Provider)
    (t : UsageTracker) : InMemoryStore :=
  ⟨dictInsert provider.value t s.trackers⟩

/-- Embeds `ProviderManager._check_rate_limit`, in-memory branch, lifted to the
store: fetch the tracker, run the in-memory decision, write the purged
tracker back. -/
def mem_check_rate_limit (s : InMemoryStore) (provider : Provider)
    (config : ProviderConfig) (now : ℤ) : InMemoryStore × Bool :=
  let r := check_rate_limit_memory (s.get_tracker provider) config now
  (s.set_tracker provider r.1, r.2)

/-- Embeds `ProviderManager._increment_usage`, in-memory branch (also
`RedisStore._increment_usage_memory`): record `time.time()` in both windows
of the provider's tracker. -/
def mem_increment_usage (s : InMemoryStore) (provider : Provider) (now : ℤ) :
    InMemoryStore :=
  s.set_tracker provider ((s.get_tracker provider).add_request now)

/-- Embeds `ProviderManager._mark_provider_failed`, in-memory branch (also
`RedisStore._mark_failed_memory`). -/
def mem_mark_provider_failed (s : InMemoryStore) (provider : Provider)
    (duration : Nat) (now : ℤ) : InMemoryStore :=
  s.set_tracker provider ((s.get_tracker provider).mark_failed now duration)

/-- Embeds `ProviderManager._is_provider_failed`, in-memory branch (also
`RedisStore._is_failed_memory`), with the self-healing mutation of
`UsageTracker.is_failed` written back. -/
def mem_is_provider_failed (s : InMemoryStore) (provider : Provider) (now : ℤ) :
    InMemoryStore × Bool :=
  let r := (s.get_tracker provider).is_failed now
  (s.set_tracker provider r.1, r.2)

/-- The metric suffix of a Redis key used by `RedisStore._get_redis_key`. -/
inductive Metric where
  | rpm
  | rpd
  | failedKey
deriving DecidableEq

/-- String form of a metric, as interpolated by `_get_redis_key`. -/
def Metric.suffix : Metric → String
  | .rpm => "rpm"
  | .rpd => "rpd"
  | .failedKey => "failed"

/-- Embeds `RedisStore._get_redis_key`: the key is the provider value and the
metric suffix spliced into the fixed prefix. -/
def redisKey (provider : Provider) (metric : Metric) : String :=
  "llm:provider:" ++ provider.value ++ ":" ++ metric.suffix

/-- The Redis connection as seen by `RedisStore`: each operation either
returns (GET yields an optional stored counter; INCR/EXPIRE pipelines and
SETEX yield the connection after the write) or raises.  The backend itself
is an external collaborator, so it is kept abstract; an operation that
raises models a degraded connection. -/
structure RedisClient where
  get : String → Except Unit (Option Nat)
  incrExpire : String → Nat → Except Unit RedisClient
  setex : String → Nat → Nat → Except Unit RedisClient

/-- Truthy-count test `if count and int(count) >= limit` of
`RedisStore.check_rate_limit` (a missing key is falsy). -/
def redisCountReached : Option Nat → Option Nat → Bool
  | some c, some m => decide (m ≤ c)
  | _, _ => false

/-- Whether an optional requests limit is truthy in Python
(`None` and `0` are falsy). -/
def limitTruthy : Option Nat → Bool
  | none => false
  | some m => decide (m ≠ 0)

/-- Day-limit half of the `try` body of `RedisStore.check_rate_limit`. -/
def redisCheckDay (rc : RedisClient) (provider : Provider)
    (config : ProviderConfig) : Except Unit Bool :=
  if limitTruthy config.requests_per_day then
    match rc.get (redisKey provider .rpd) with
    | .error e => .error e
    | .ok count =>
      if redisCountReached count config.requests_per_day then .ok false else .ok true
  else .ok true

/-- The `try` body of `RedisStore.check_rate_limit`: consult the RPM counter
key, then the RPD counter key, returning false at the first ceiling reached;
a connection error aborts the body. -/
def redisCheckBody (rc : RedisClient) (provider : Provider)
    (config : ProviderConfig) : Except Unit Bool :=
  if limitTruthy config.requests_per_minute then
    match rc.get (redisKey provider .rpm) with
    | .error e => .error e
    | .ok count =>
      if redisCountReached count config.requests_per_minute then .ok false
      else redisCheckDay rc provider config
  else redisCheckDay rc provider config

/-- Day half of the `try` body of `RedisStore.increment_usage`. -/
def redisIncrDay (rc : RedisClient) (provider : Provider)
    (config : ProviderConfig) : Except Unit RedisClient :=
  if limitTruthy config.requests_per_day then
    rc.incrExpire (redisKey provider .rpd) 86400
  else .ok rc

/-- The `try` body of `RedisStore.increment_usage`: INCR+EXPIRE the RPM key
(60 s expiry) then the RPD key (24 h expiry); a connection error aborts. -/
def redisIncrBody (rc : RedisClient) (provider : Provider)
    (config : ProviderConfig) : Except Unit RedisClient :=
  if limitTruthy config.requests_per_minute then
    match rc.incrExpire (redisKey provider .rpm) 60 with
    | .error e => .error e
    | .ok rc' => redisIncrDay rc' provider config
  else redisIncrDay rc provider config

/-- The `RedisStore` class: the connection plus the in-memory backup store. -/
structure RedisStore where
  redis : RedisClient
  memory_store : InMemoryStore

/-- Embeds `RedisStore.check_rate_limit`: run the Redis body; on a connection error
fall back to `_check_rate_limit_memory` for this single call. -/
def RedisStore.check_rate_limit (s : RedisStore) (provider : Provider)
    (config : ProviderConfig) (now : ℤ) : RedisStore × Bool :=
  match redisCheckBody s.redis provider config with
  | .ok verdict => (s, verdict)
  | .error _ =>
    let r := mem_check_rate_limit s.memory_store provider config now
    ({ s with memory_store := r.1 }, r.2)

/-- Embeds `RedisStore.increment_usage`: run the Redis body; on a connection error
fall back to `_increment_usage_memory` for this single call. -/
def RedisStore.increment_usage (s : RedisStore) (provider : Provider)
    (config : ProviderConfig) (now : ℤ) : RedisStore :=
  match redisIncrBody s.redis provider config with
  | .ok rc' => { s with redis := rc' }
  | .error _ => { s with memory_store := mem_increment_usage s.memory_store provider now }

/-- Embeds `RedisStore.mark_provider_failed`: SETEX the failed key; on a connection
error fall back to `_mark_failed_memory`. -/
def RedisStore.mark_provider_failed (s : RedisStore) (provider : Provider)
    (duration : Nat) (now : ℤ) : RedisStore :=
  match s.redis.setex (redisKey provider .failedKey) duration 1 with
  | .ok rc' => { s with redis := rc' }
  | .error _ =>
    { s with memory_store := mem_mark_provider_failed s.memory_store provider duration now }

/-- Embeds `RedisStore.is_provider_failed`: GET the failed key and test truthiness;
on a connection error fall back to `_is_failed_memory`. -/
def RedisStore.is_provider_failed (s : RedisStore) (provider : Provider) (now : ℤ) :
    RedisStore × Bool :=
  match s.redis.get (redisKey provider .failedKey) with
  | .ok v => (s, v.isSome)
  | .error _ =>
    let r := mem_is_provider_failed s.memory_store provider now
    ({ s with memory_store := r.1 }, r.2)

/-- An exception escaping a dispatched completion call, as discriminated by
the `except` clauses of `_try_provider`: an `openai.RateLimitError`, an
exception carrying a `status_code` attribute, or any other exception
(timeouts, transport failures, ...). -/
inductive PyError where
  | rateLimitError
  | statusError (status : ℤ)
  | otherError
deriving DecidableEq

/-- The cooldown imposed by the `except` clauses of `_try_provider`
(lines 417-434): `RateLimitError` ⇒ 60 s; `status_code == 429` ⇒ 60 s;
`status_code >= 500` ⇒ 300 s; anything else ⇒ no cooldown. -/
def cooldownFor : PyError → Option Nat
  | .rateLimitError => some 60
  | .statusError status =>
    if status = 429 then some 60
    else if status ≥ 500 then some 300
    else none
  | .otherError => none

/-- Outcome of one `_try_provider` call.  The first two constructors are the
exceptions raised by the admission checks, before any network traffic; the
last two record a dispatched request together with the model name sent. -/
inductive TryOutcome (ρ : Type) where
  | failedProvider
  | rateLimited
  | success (response : ρ) (model : String)
  | dispatchError (e : PyError) (model : String)
deriving DecidableEq

/-- Embeds `ProviderManager._try_provider` over the in-memory store, acting on the
selected provider's tracker: admission check against the failure cooldown,
then against the rate limits, then model injection, optimistic usage
increment, and the dispatched call whose result is supplied by the network
oracle `net`.  On an error escaping the dispatch, the cooldown dictated by
`cooldownFor` is applied before the exception propagates. -/
def try_provider {ρ : Type} (config : ProviderConfig) (t : UsageTracker) (now : ℤ)
    (kwargs_model : Option String) (net : Except PyError ρ) :
    UsageTracker × TryOutcome ρ :=
  let r1 := t.is_failed now
  if r1.2 then (r1.1, .failedProvider)
  else
    let r2 := check_rate_limit_memory r1.1 config now
    if !r2.2 then (r2.1, .rateLimited)
    else
      let model := kwargs_model.getD config.model
      let t3 := r2.1.add_request now
      match net with
      | .ok response => (t3, .success response model)
      | .error e =>
        match cooldownFor e with
        | some duration => (t3.mark_failed now duration, .dispatchError e model)
        | none => (t3, .dispatchError e model)

/-- The aggregate error raised when the failover loop exhausts every
provider: all n providers failed, with the last error attached. -/
structure AggError where
  total : Nat
  last : Option PyError
deriving DecidableEq

/-- The 0.5-second pause `asyncio.sleep(0.5)` between failover attempts. -/
def interAttemptDelay : ℚ := 1 / 2

/-- Observable trace of one `create_completion` call: its outcome, the final
shared cursor, the number of `_try_provider` attempts made, the sequence of
inter-attempt delays awaited, and the cursor values attempted in order. -/
structure CCRun (ρ : Type) where
  result : Except AggError ρ
  finalIdx : Nat
  attempts : Nat
  sleeps : List ℚ
  tried : List Nat

/-- The `for attempt in range(len(self.providers))` loop of
`create_completion`.  `fuel` is the number of loop iterations left
(`n - attempt`); `idx` is `self.current_provider_idx`.  Each iteration
selects the provider at the cursor and makes one `_try_provider` call,
abstracted by the oracle `attemptF` giving the outcome of the
`attempt`-numbered call: a response, or the exception it raised.  On
success the response is returned with the cursor untouched; on failure the
cursor advances modulo `n`, and a 0.5 s delay is awaited when
`attempt < n - 1`. -/
def ccLoop {ρ : Type} (n : Nat) (attemptF : Nat → Except PyError ρ) :
    Nat → Nat → Nat → List ℚ → List Nat → Option PyError → CCRun ρ
  | 0, attempt, idx, slept, tried, last_error =>
    ⟨.error ⟨n, last_error⟩, idx, attempt, slept, tried⟩
  | fuel + 1, attempt, idx, slept, tried, _last_error =>
    let tried' := tried ++ [idx]
    match attemptF attempt with
    | .ok response => ⟨.ok response, idx, attempt + 1, slept, tried'⟩
    | .error e =>
      ccLoop n attemptF fuel (attempt + 1) ((idx + 1) % n)
        (if attempt < n - 1 then slept ++ [interAttemptDelay] else slept)
        tried' (some e)

/-- Embeds `ProviderManager.create_completion`: rotate through the configured
providers starting at the shared cursor `idx0`, returning the first
successful response or the aggregate error after one full pass. -/
def create_completion {ρ : Type} (providers : List ProviderConfig) (idx0 : Nat)
    (attemptF : Nat → Except PyError ρ) : CCRun ρ :=
  ccLoop providers.length attemptF providers.length 0 idx0 [] [] none

/-- The store held by a `ProviderManager`: the in-memory variant or the
Redis-backed variant (`isinstance` discriminates them in the source). -/
inductive Store where
  | mem (s : InMemoryStore)
  | redis (s : RedisStore)

/-- One provider's entry in the `get_usage_stats` snapshot. -/
structure UsageStats where
  requests_last_minute : Nat
  requests_last_day : Nat
  failedFlag : Bool
deriving DecidableEq

/-- The snapshot entry built by the loop body of
`ProviderManager.get_usage_stats` for one provider of an in-memory store:
purged counts, then the self-healing failed check on the purged tracker. -/
def usage_stats_entry (s : InMemoryStore) (config : ProviderConfig) (now : ℤ) :
    UsageStats :=
  let r := (s.get_tracker config.name).get_counts now
  ⟨r.2.1, r.2.2, (r.1.is_failed now).2⟩

/-- Embeds `ProviderManager.get_usage_stats`: iterate over the configured providers
and, only when the store is an `InMemoryStore`, assign that provider's entry
into the stats dict.  (No branch exists for the Redis-backed store.) -/
def get_usage_stats (providers : List ProviderConfig) (store : Store) (now : ℤ) :
    List (String × UsageStats) :=
  providers.foldl
    (fun stats config =>
      match store with
      | .mem s => dictInsert config.name.value (usage_stats_entry s config now) stats
      | .redis _ => stats)
    []

/-- Embeds `LLMClient.get_available_providers`:
`[p.name.value for p in self._manager.providers]`. -/
def get_available_providers (providers : List ProviderConfig) : List String :=
  providers.map (fun p => p.name.value)

/-- A Groq-like sample configuration (as built by `_initialize_providers`). -/
def cfgGroq : ProviderConfig where
  name := .groq
  base_url := "https://api.groq.com/openai/v1"
  api_key := "key-groq"
  model := "llama-3.1-8b-instant"
  requests_per_minute := some 30
  requests_per_day := some 14400

/-- An OpenAI-like sample configuration with no rate limits. -/
def cfgOpenai : ProviderConfig where
  name := .openai
  base_url := "https://api.openai.com/v1"
  api_key := "key-openai"
  model := "gpt-3.5-turbo"

/-- A Redis connection whose every operation raises: the degraded-backend
scenario of the fallback policy. -/
def failingRedis : RedisClient where
  get := fun _ => .error ()
  incrExpire := fun _ _ => .error ()
  setex := fun _ _ _ => .error ()

/-- A Cerebras-like sample configuration with a per-minute ceiling of 2 and
no daily ceiling. -/
def cfgTwo : ProviderConfig where
  name := .cerebras
  base_url := "https://api.cerebras.ai/v1"
  api_key := "key-cerebras"
  model := "llama3.1-8b"
  requests_per_minute := some 2

theorem dropOld_suffix (window now : ℤ) (l : List ℤ) :
    ∃ pre, l = pre ++ dropOld window now l := by
  induction l with
  | nil => exact ⟨[], rfl⟩
  | cons x xs ih =>
    by_cases h : now - x > window
    · obtain ⟨pre, hpre⟩ := ih
      exact ⟨x :: pre, by simp [dropOld, h, ← hpre]⟩
    · exact ⟨[], by simp [dropOld, h]⟩

theorem dropOld_dropOld (window now now' : ℤ) (h : now ≤ now') (l : List ℤ) :
    dropOld window now' (dropOld window now l) = dropOld window now' l := by
  induction l with
  | nil => rfl
  | cons x xs ih =>
    by_cases hx : now - x > window
    · have hx' : now' - x > window := by omega
      simp [dropOld, hx, hx', ih]
    · simp [dropOld, hx]

theorem dropOld_eq_filter (window now : ℤ) (l : List ℤ)
    (hsorted : l.Pairwise (· ≤ ·)) (hle : ∀ x ∈ l, x ≤ now) :
    dropOld window now l =
      l.filter (fun x => decide (now - window ≤ x) && decide (x ≤ now)) := by
  induction l with
  | nil => rfl
  | cons x xs ih =>
    rw [List.pairwise_cons] at hsorted
    by_cases hx : now - x > window
    · have : ¬ (now - window ≤ x) := by omega
      simp only [dropOld, if_pos hx, List.filter_cons]
      rw [ih hsorted.2 (fun y hy => hle y (List.mem_cons_of_mem x hy))]
      simp [this]
    · have h1 : now - window ≤ x := by omega
      have h2 : x ≤ now := hle x (List.mem_cons_self x xs)
      have hrest : xs.filter (fun y => decide (now - window ≤ y) && decide (y ≤ now)) = xs := by
        rw [List.filter_eq_self]
        intro y hy
        have hxy : x ≤ y := hsorted.1 y hy
        have hyn : y ≤ now := hle y (List.mem_cons_of_mem x hy)
        simp only [Bool.and_eq_true, decide_eq_true_eq]
        omega
      have hcond : (decide (now - window ≤ x) && decide (x ≤ now)) = true := by
        simp only [Bool.and_eq_true, decide_eq_true_eq]
        omega
      have hgoal :
          List.filter (fun y => decide (now - window ≤ y) && decide (y ≤ now)) (x :: xs) =
            x :: xs := by
        rw [List.filter_cons, hcond, if_pos rfl, hrest]
      simp only [dropOld, if_neg hx]
      exact hgoal.symm

theorem is_failed_false_marker (t : UsageTracker) (now : ℤ)
    (h : (t.is_failed now).2 = false) : (t.is_failed now).1.failed_until = none := by
  unfold UsageTracker.is_failed at *
  cases hf : t.failed_until with
  | none => simp [hf]
  | some fu =>
    simp only [hf] at h ⊢
    by_cases hge : now ≥ fu
    · simp [hge]
    · simp [hge] at h

theorem range_map_mod_shift (n idx r : Nat) (hidx : idx < n) :
    idx :: (List.range r).map (fun j => ((idx + 1) % n + j) % n) =
      (List.range (r + 1)).map (fun j => (idx + j) % n) := by
  rw [List.range_succ_eq_map, List.map_cons, List.map_map]
  congr 1
  · simp [Nat.mod_eq_of_lt hidx]
  · apply List.map_congr_left
    intro a _
    simp only [Function.comp_apply, Nat.succ_eq_add_one, Nat.mod_add_mod]
    congr 1
    omega

theorem ccLoop_all_fail {ρ : Type} (n : Nat) (attemptF : Nat → Except PyError ρ)
    (es : Nat → PyError) (hf : ∀ k, k < n → attemptF k = .error (es k)) :
    ∀ (r attempt idx : Nat) (slept : List ℚ) (tried : List Nat)
      (last_error : Option PyError), attempt + r = n → idx < n →
      ccLoop n attemptF r attempt idx slept tried last_error =
        ⟨.error ⟨n, if r = 0 then last_error else some (es (n - 1))⟩,
         (idx + r) % n, n, slept ++ List.replicate (r - 1) interAttemptDelay,
         tried ++ (List.range r).map (fun j => (idx + j) % n)⟩ := by
  intro r
  induction r with
  | zero =>
    intro attempt idx slept tried last_error hsum hidx
    obtain rfl : attempt = n := by omega
    simp [ccLoop, Nat.mod_eq_of_lt hidx]
  | succ r ih =>
    intro attempt idx slept tried last_error hsum hidx
    have hattempt : attempt < n := by omega
    have hn : 0 < n := by omega
    simp only [ccLoop, hf attempt hattempt]
    rw [ih (attempt + 1) ((idx + 1) % n) _ _ (some (es attempt)) (by omega)
      (Nat.mod_lt _ hn)]
    have hlast :
        (if r = 0 then some (es attempt) else some (es (n - 1))) = some (es (n - 1)) := by
      by_cases hr : r = 0
      · subst hr
        obtain rfl : attempt = n - 1 := by omega
        simp
      · simp [hr]
    have hidxeq : ((idx + 1) % n + r) % n = (idx + (r + 1)) % n := by
      rw [Nat.mod_add_mod]
      congr 1
      omega
    have hsleeps :
        (if attempt < n - 1 then slept ++ [interAttemptDelay] else slept) ++
            List.replicate (r - 1) interAttemptDelay =
          slept ++ List.replicate (r + 1 - 1) interAttemptDelay := by
      by_cases hr : r = 0
      · subst hr
        have : ¬ attempt < n - 1 := by omega
        simp [this]
      · have : attempt < n - 1 := by omega
        rw [if_pos this, List.append_assoc]
        congr 1
        have hrep : interAttemptDelay :: List.replicate (r - 1) interAttemptDelay =
            List.replicate r interAttemptDelay := by
          conv_rhs => rw [show r = (r - 1) + 1 by omega]
          rfl
        simp only [List.singleton_append, hrep, Nat.add_sub_cancel]
    have htried :
        (tried ++ [idx]) ++ (List.range r).map (fun j => ((idx + 1) % n + j) % n) =
          tried ++ (List.range (r + 1)).map (fun j => (idx + j) % n) := by
      rw [List.append_assoc, List.singleton_append, range_map_mod_shift n idx r hidx]
    rw [hlast, hidxeq, hsleeps, htried]
    simp

theorem ccLoop_ok {ρ : Type} (n : Nat) (attemptF : Nat → Except PyError ρ)
    (es : Nat → PyError) (resp : ρ) :
    ∀ (j r attempt idx : Nat) (slept : List ℚ) (tried : List Nat)
      (last_error : Option PyError), attempt + r = n → idx < n → j < r →
      (∀ i, i < j → attemptF (attempt + i) = .error (es (attempt + i))) →
      attemptF (attempt + j) = .ok resp →
      ccLoop n attemptF r attempt idx slept tried last_error =
        ⟨.ok resp, (idx + j) % n, attempt + j + 1,
         (ccLoop n attemptF r attempt idx slept tried last_error).sleeps,
         tried ++ (List.range (j + 1)).map (fun i => (idx + i) % n)⟩ := by
  intro j
  induction j with
  | zero =>
    intro r attempt idx slept tried last_error hsum hidx hjr _ hok
    obtain ⟨r', rfl⟩ : ∃ r', r = r' + 1 := ⟨r - 1, by omega⟩
    rw [Nat.add_zero] at hok
    simp [ccLoop, hok, Nat.mod_eq_of_lt hidx, List.range_succ]
  | succ j ih =>
    intro r attempt idx slept tried last_error hsum hidx hjr hfail hok
    obtain ⟨r', rfl⟩ : ∃ r', r = r' + 1 := ⟨r - 1, by omega⟩
    have hn : 0 < n := by omega
    have hfa : attemptF attempt = .error (es attempt) := by
      have := hfail 0 (by omega)
      simpa using this
    simp only [ccLoop, hfa]
    rw [ih r' (attempt + 1) ((idx + 1) % n) _ _ (some (es attempt)) (by omega)
      (Nat.mod_lt _ hn) (by omega)
      (fun i hi => by
        have := hfail (i + 1) (by omega)
        rw [show attempt + 1 + i = attempt + (i + 1) by omega]
        exact this)
      (by rw [show attempt + 1 + j = attempt + (j + 1) by omega]; exact hok)]
    have hidxeq : ((idx + 1) % n + j) % n = (idx + (j + 1)) % n := by
      rw [Nat.mod_add_mod]
      congr 1
      omega
    have htried :
        (tried ++ [idx]) ++ (List.range (j + 1)).map (fun i => ((idx + 1) % n + i) % n) =
          tried ++ (List.range (j + 1 + 1)).map (fun i => (idx + i) % n) := by
      rw [List.append_assoc, List.singleton_append, range_map_mod_shift n idx (j + 1) hidx]
    rw [hidxeq, htried]
    have hatt : attempt + 1 + j + 1 = attempt + (j + 1) + 1 := by omega
    rw [hatt]

theorem check_rate_limit_memory_fst (t : UsageTracker) (config : ProviderConfig)
    (now : ℤ) :
    (check_rate_limit_memory t config now).1 = t.cleanup_old_requests now := by
  unfold check_rate_limit_memory UsageTracker.get_counts
  by_cases h1 : limitReached config.requests_per_minute
      (t.cleanup_old_requests now).minute_requests.length <;>
    by_cases h2 : limitReached config.requests_per_day
        (t.cleanup_old_requests now).day_requests.length <;>
      simp [h1, h2]

theorem rotation_nodup (n idx0 : Nat) :
    ((List.range n).map (fun k => (idx0 + k) % n)).Nodup := by
  rcases Nat.eq_zero_or_pos n with hn | hn
  · simp [hn]
  have aux : ∀ a b, a < b → b < n → (idx0 + a) % n = (idx0 + b) % n → False := by
    intro a b hab hb heq
    have hmod : Nat.ModEq n (idx0 + a) (idx0 + b) := heq
    have hdvd : n ∣ (idx0 + b) - (idx0 + a) :=
      (Nat.modEq_iff_dvd' (by omega)).mp hmod
    have hsub : (idx0 + b) - (idx0 + a) = b - a := by omega
    rw [hsub] at hdvd
    have := Nat.le_of_dvd (by omega) hdvd
    omega
  apply List.Nodup.map_on ?_ (List.nodup_range n)
  intro k hk k' hk' heq
  rw [List.mem_range] at hk hk'
  rcases lt_trichotomy k k' with h | h | h
  · exact absurd heq (fun hc => aux k k' h hk' hc)
  · exact h
  · exact absurd heq.symm (fun hc => aux k' k h hk hc)

/-- C1: for every provider count N ≥ 1, if every one of the N per-attempt
calls inside `create_completion` raises, then the call makes exactly N
attempts (one per configured provider: the attempted cursor values are the
N pairwise-distinct rotations of the start cursor), awaits the 0.5 s
inter-attempt delay exactly N − 1 times, and yields exactly one aggregate
error carrying the last per-attempt error; no per-attempt error escapes on
its own. -/
theorem create_completion_all_fail {ρ : Type} (providers : List ProviderConfig)
    (idx0 : Nat) (attemptF : Nat → Except PyError ρ) (es : Nat → PyError)
    (hN : 1 ≤ providers.length) (hidx : idx0 < providers.length)
    (hf : ∀ k, k < providers.length → attemptF k = .error (es k)) :
    (create_completion providers idx0 attemptF).result =
        .error ⟨providers.length, some (es (providers.length - 1))⟩ ∧
      (create_completion providers idx0 attemptF).attempts = providers.length ∧
      (create_completion providers idx0 attemptF).sleeps =
        List.replicate (providers.length - 1) interAttemptDelay ∧
      (create_completion providers idx0 attemptF).tried =
        (List.range providers.length).map
          (fun k => (idx0 + k) % providers.length) ∧
      (create_completion providers idx0 attemptF).tried.Nodup := by
  have h := ccLoop_all_fail providers.length attemptF es hf providers.length 0 idx0
    [] [] none (by omega) hidx
  unfold create_completion
  rw [h]
  refine ⟨?_, rfl, by simp, by simp, ?_⟩
  · simp only [CCRun.mk.injEq]
    have : providers.length ≠ 0 := by omega
    simp [this]
  · simpa using rotation_nodup providers.length idx0

theorem create_completion_all_fail_witness :
    (1 ≤ ([cfgGroq, cfgOpenai] : List ProviderConfig).length) ∧
      (create_completion [cfgGroq, cfgOpenai] 0
          (fun _ => (Except.error PyError.otherError : Except PyError Nat))).result =
        .error ⟨2, some PyError.otherError⟩ ∧
      (create_completion [cfgGroq, cfgOpenai] 0
          (fun _ => (Except.error PyError.otherError : Except PyError Nat))).attempts = 2 ∧
      (create_completion [cfgGroq, cfgOpenai] 0
          (fun _ => (Except.error PyError.otherError : Except PyError Nat))).sleeps =
        List.replicate 1 interAttemptDelay := by
  have h := create_completion_all_fail [cfgGroq, cfgOpenai] 0
    (fun _ => (Except.error PyError.otherError : Except PyError Nat))
    (fun _ => PyError.otherError) (by decide) (by decide) (fun k _ => rfl)
  exact ⟨by decide, h.1, h.2.1, h.2.2.1⟩

theorem getLast?_map_range (f : Nat → Nat) (k : Nat) :
    ((List.range (k + 1)).map f).getLast? = some (f k) := by
  rw [List.range_succ, List.map_append, List.map_singleton, List.getLast?_concat]

/-- C2: a call that succeeds on the k-th attempted provider returns that
provider's response, makes exactly k attempts, and leaves the shared cursor
at the index it attempted last (the successful provider): the cursor is not
advanced on success. -/
theorem create_completion_ok {ρ : Type} (providers : List ProviderConfig)
    (idx0 k : Nat) (attemptF : Nat → Except PyError ρ) (es : Nat → PyError)
    (resp : ρ) (hk1 : 1 ≤ k) (hkN : k ≤ providers.length)
    (hidx : idx0 < providers.length)
    (hfail : ∀ j, j < k - 1 → attemptF j = .error (es j))
    (hok : attemptF (k - 1) = .ok resp) :
    (create_completion providers idx0 attemptF).result = .ok resp ∧
      (create_completion providers idx0 attemptF).finalIdx =
        (idx0 + (k - 1)) % providers.length ∧
      (create_completion providers idx0 attemptF).attempts = k ∧
      (create_completion providers idx0 attemptF).tried.getLast? =
        some (create_completion providers idx0 attemptF).finalIdx := by
  have h := ccLoop_ok providers.length attemptF es resp (k - 1) providers.length 0
    idx0 [] [] none (by omega) hidx (by omega)
    (fun i hi => by simpa using hfail i hi)
    (by simpa using hok)
  unfold create_completion
  rw [h]
  refine ⟨rfl, rfl, ?_, ?_⟩
  · show 0 + (k - 1) + 1 = k
    omega
  · show (([] : List Nat) ++
        (List.range (k - 1 + 1)).map (fun i => (idx0 + i) % providers.length)).getLast? =
      some ((idx0 + (k - 1)) % providers.length)
    rw [List.nil_append, getLast?_map_range]

theorem create_completion_ok_witness :
    (1 ≤ 2) ∧
      (create_completion [cfgGroq, cfgOpenai] 0
          (fun a => if a = 0 then (Except.error PyError.otherError : Except PyError Nat)
            else Except.ok 7)).result = .ok 7 ∧
      (create_completion [cfgGroq, cfgOpenai] 0
          (fun a => if a = 0 then (Except.error PyError.otherError : Except PyError Nat)
            else Except.ok 7)).finalIdx = 1 ∧
      (create_completion [cfgGroq, cfgOpenai] 0
          (fun a => if a = 0 then (Except.error PyError.otherError : Except PyError Nat)
            else Except.ok 7)).attempts = 2 := by
  have h := create_completion_ok [cfgGroq, cfgOpenai] 0 2
    (fun a => if a = 0 then (Except.error PyError.otherError : Except PyError Nat)
      else Except.ok 7)
    (fun _ => PyError.otherError) 7 (by decide) (by decide) (by decide)
    (fun j hj => by interval_cases j <;> rfl) rfl
  exact ⟨by decide, h.1, h.2.1, h.2.2.1⟩

/-- C10: a `create_completion` call in which all N attempts fail advances the
cursor exactly N times modulo N and therefore leaves it equal to its value
before the call: a fully-failed call is cursor-atomic. -/
theorem create_completion_all_fail_cursor {ρ : Type}
    (providers : List ProviderConfig) (idx0 : Nat)
    (attemptF : Nat → Except PyError ρ) (es : Nat → PyError)
    (hN : 1 ≤ providers.length) (hidx : idx0 < providers.length)
    (hf : ∀ k, k < providers.length → attemptF k = .error (es k)) :
    (create_completion providers idx0 attemptF).finalIdx =
        (idx0 + providers.length) % providers.length ∧
      (create_completion providers idx0 attemptF).finalIdx = idx0 ∧
      (create_completion providers idx0 attemptF).result =
        .error ⟨providers.length, some (es (providers.length - 1))⟩ := by
  have h := ccLoop_all_fail providers.length attemptF es hf providers.length 0 idx0
    [] [] none (by omega) hidx
  unfold create_completion
  rw [h]
  refine ⟨rfl, ?_, ?_⟩
  · simp [Nat.add_mod_right, Nat.mod_eq_of_lt hidx]
  · have : providers.length ≠ 0 := by omega
    simp [this]

theorem is_failed_of_none (t : UsageTracker) (now : ℤ) (h : t.failed_until = none) :
    t.is_failed now = (t, false) := by
  unfold UsageTracker.is_failed
  rw [h]

theorem is_failed_fst_windows (t : UsageTracker) (now : ℤ) :
    (t.is_failed now).1.minute_requests = t.minute_requests ∧
      (t.is_failed now).1.day_requests = t.day_requests := by
  unfold UsageTracker.is_failed
  cases t.failed_until with
  | none => exact ⟨rfl, rfl⟩
  | some fu =>
    by_cases h : now ≥ fu
    · simp [h]
    · simp [h]

theorem try_provider_dispatch_eq {ρ : Type} (config : ProviderConfig)
    (t : UsageTracker) (now : ℤ) (kwargs_model : Option String)
    (net : Except PyError ρ)
    (hadm : (t.is_failed now).2 = false)
    (hrate : (check_rate_limit_memory (t.is_failed now).1 config now).2 = true) :
    try_provider config t now kwargs_model net =
      (match net with
       | .ok r =>
         ((((t.is_failed now).1.cleanup_old_requests now).add_request now),
          .success r (kwargs_model.getD config.model))
       | .error e =>
         match cooldownFor e with
         | some d =>
           (((((t.is_failed now).1.cleanup_old_requests now).add_request now)).mark_failed
              now d,
            .dispatchError e (kwargs_model.getD config.model))
         | none =>
           ((((t.is_failed now).1.cleanup_old_requests now).add_request now),
            .dispatchError e (kwargs_model.getD config.model))) := by
  simp only [try_provider, hadm, hrate, Bool.not_true, if_false, Bool.false_eq_true,
    ite_false, check_rate_limit_memory_fst]

/-- C4: a provider whose failed-until marker is a future time t fails the
admission check with no dispatch (the outcome is independent of the network
and the tracker is untouched) for any now < t; and any `is_failed` check at
now ≥ t returns false and clears the marker, so the provider is eligible
again with no external reset. -/
theorem cooldown_skip_and_self_heal (config : ProviderConfig) (t : UsageTracker)
    (now fu : ℤ) :
    (t.failed_until = some fu → now < fu →
      ∀ (ρ : Type) (kwargs_model : Option String) (net : Except PyError ρ),
        try_provider config t now kwargs_model net = (t, .failedProvider)) ∧
    (t.failed_until = some fu → fu ≤ now →
      t.is_failed now = ({ t with failed_until := none }, false)) := by
  constructor
  · intro hfu hlt ρ kwargs_model net
    have hisf : t.is_failed now = (t, true) := by
      simp only [UsageTracker.is_failed, hfu]
      rw [if_neg (by omega)]
    simp [try_provider, hisf]
  · intro hfu hge
    simp only [UsageTracker.is_failed, hfu]
    rw [if_pos (by omega)]

theorem cooldown_skip_and_self_heal_witness :
    ((⟨[], [], some 100⟩ : UsageTracker).failed_until = some 100) ∧
      ((50 : ℤ) < 100) ∧
      try_provider cfgGroq ⟨[], [], some 100⟩ 50 none (Except.ok (0 : Nat)) =
        (⟨[], [], some 100⟩, .failedProvider) ∧
      ((100 : ℤ) ≤ 150) ∧
      UsageTracker.is_failed ⟨[], [], some 100⟩ 150 = (⟨[], [], none⟩, false) := by
  refine ⟨rfl, by decide, ?_, by decide, ?_⟩
  · exact (cooldown_skip_and_self_heal cfgGroq ⟨[], [], some 100⟩ 50 100).1 rfl
      (by decide) Nat none (Except.ok 0)
  · exact (cooldown_skip_and_self_heal cfgGroq ⟨[], [], some 100⟩ 150 100).2 rfl
      (by decide)

/-- C3: when an admitted attempt's dispatched call raises, the cooldown
written to the provider's tracker is exactly determined by the failure
class: a rate-limit error or HTTP 429 sets failed-until to now + 60, an
HTTP status ≥ 500 sets it to now + 300, and any other error (no status
code included) leaves no cooldown, so the provider stays eligible at every
later admission check. -/
theorem dispatch_error_cooldown {ρ : Type} (config : ProviderConfig)
    (t : UsageTracker) (now : ℤ) (kwargs_model : Option String) (e : PyError)
    (hadm : (t.is_failed now).2 = false)
    (hrate : (check_rate_limit_memory (t.is_failed now).1 config now).2 = true) :
    ((try_provider config t now kwargs_model
        (Except.error e : Except PyError ρ)).1.failed_until =
      match e with
      | .rateLimitError => some (now + 60)
      | .statusError s =>
        if s = 429 then some (now + 60)
        else if s ≥ 500 then some (now + 300) else none
      | .otherError => none) ∧
    (cooldownFor e = none →
      ∀ later : ℤ,
        (((try_provider config t now kwargs_model
            (Except.error e : Except PyError ρ)).1).is_failed later).2 = false) := by
  have hnone : (t.is_failed now).1.failed_until = none :=
    is_failed_false_marker t now hadm
  have hkey : (try_provider config t now kwargs_model
      (Except.error e : Except PyError ρ)).1.failed_until =
      (cooldownFor e).map (fun d => now + (d : ℤ)) := by
    rw [try_provider_dispatch_eq config t now kwargs_model _ hadm hrate]
    cases hc : cooldownFor e with
    | none =>
      simp [hc, UsageTracker.add_request, UsageTracker.cleanup_old_requests, hnone]
    | some d =>
      simp [hc, UsageTracker.mark_failed, UsageTracker.add_request,
        UsageTracker.cleanup_old_requests]
  constructor
  · rw [hkey]
    cases e with
    | rateLimitError => simp [cooldownFor]
    | statusError s =>
      by_cases h429 : s = 429
      · simp [cooldownFor, h429]
      · by_cases h500 : s ≥ 500
        · simp [cooldownFor, h429, h500]
        · simp [cooldownFor, h429, h500]
    | otherError => simp [cooldownFor]
  · intro hcool later
    have : (try_provider config t now kwargs_model
        (Except.error e : Except PyError ρ)).1.failed_until = none := by
      rw [hkey, hcool]
      rfl
    rw [is_failed_of_none _ later this]

theorem dispatch_error_cooldown_witness :
    ((UsageTracker.is_failed ⟨[], [], none⟩ 1000).2 = false) ∧
      ((check_rate_limit_memory (UsageTracker.is_failed ⟨[], [], none⟩ 1000).1
          cfgGroq 1000).2 = true) ∧
      (try_provider cfgGroq ⟨[], [], none⟩ 1000 none
          (Except.error (PyError.statusError 503) : Except PyError Nat)).1.failed_until =
        some 1300 := by
  refine ⟨by decide, by decide, ?_⟩
  have h := (dispatch_error_cooldown (ρ := Nat) cfgGroq ⟨[], [], none⟩ 1000 none
    (PyError.statusError 503) (by decide) (by decide)).1
  simpa using h

/-- C8: for every admitted attempt, the request timestamp is recorded in
both usage windows before the network call, so one request of usage is
charged whether the dispatched call succeeds or raises; and the model sent
is the caller's when given, else the provider's configured default. -/
theorem dispatch_charge_and_model {ρ : Type} (config : ProviderConfig)
    (t : UsageTracker) (now : ℤ) (kwargs_model : Option String)
    (net : Except PyError ρ)
    (hadm : (t.is_failed now).2 = false)
    (hrate : (check_rate_limit_memory (t.is_failed now).1 config now).2 = true) :
    (try_provider config t now kwargs_model net).1.minute_requests =
        dropOld 60 now t.minute_requests ++ [now] ∧
      (try_provider config t now kwargs_model net).1.day_requests =
        dropOld 86400 now t.day_requests ++ [now] ∧
      (try_provider config t now kwargs_model net).2 =
        (match net with
         | .ok r => .success r (kwargs_model.getD config.model)
         | .error e => .dispatchError e (kwargs_model.getD config.model)) ∧
      (kwargs_model = none →
        (try_provider config t now kwargs_model net).2 =
          (match net with
           | .ok r => .success r config.model
           | .error e => .dispatchError e config.model)) := by
  obtain ⟨hm, hd⟩ := is_failed_fst_windows t now
  rw [try_provider_dispatch_eq config t now kwargs_model net hadm hrate]
  cases net with
  | ok r =>
    refine ⟨?_, ?_, ?_, fun hk => ?_⟩
    · simp [UsageTracker.add_request, UsageTracker.cleanup_old_requests, hm]
    · simp [UsageTracker.add_request, UsageTracker.cleanup_old_requests, hd]
    · simp
    · subst hk
      simp
  | error e =>
    cases hc : cooldownFor e with
    | none =>
      refine ⟨?_, ?_, ?_, fun hk => ?_⟩
      · simp [hc, UsageTracker.add_request, UsageTracker.cleanup_old_requests, hm]
      · simp [hc, UsageTracker.add_request, UsageTracker.cleanup_old_requests, hd]
      · simp [hc]
      · subst hk
        simp [hc]
    | some d =>
      refine ⟨?_, ?_, ?_, fun hk => ?_⟩
      · simp [hc, UsageTracker.add_request, UsageTracker.cleanup_old_requests,
          UsageTracker.mark_failed, hm]
      · simp [hc, UsageTracker.add_request, UsageTracker.cleanup_old_requests,
          UsageTracker.mark_failed, hd]
      · simp [hc]
      · subst hk
        simp [hc]

theorem dispatch_charge_and_model_witness :
    ((UsageTracker.is_failed ⟨[100], [100], none⟩ 1000).2 = false) ∧
      ((check_rate_limit_memory (UsageTracker.is_failed ⟨[100], [100], none⟩ 1000).1
          cfgGroq 1000).2 = true) ∧
      (try_provider cfgGroq ⟨[100], [100], none⟩ 1000 none
          (Except.error PyError.otherError : Except PyError Nat)).1.minute_requests =
        dropOld 60 1000 [100] ++ [1000] ∧
      (try_provider cfgGroq ⟨[100], [100], none⟩ 1000 none
          (Except.error PyError.otherError : Except PyError Nat)).2 =
        TryOutcome.dispatchError PyError.otherError cfgGroq.model := by
  have h := dispatch_charge_and_model (ρ := Nat) cfgGroq ⟨[100], [100], none⟩ 1000 none
    (Except.error PyError.otherError) (by decide) (by decide)
  exact ⟨by decide, by decide, h.1, h.2.2.2 rfl⟩

theorem create_completion_all_fail_cursor_witness :
    (1 ≤ ([cfgGroq, cfgOpenai] : List ProviderConfig).length) ∧
      (create_completion [cfgGroq, cfgOpenai] 1
          (fun _ => (Except.error PyError.rateLimitError : Except PyError Nat))).finalIdx
        = 1 := by
  have h := create_completion_all_fail_cursor [cfgGroq, cfgOpenai] 1
    (fun _ => (Except.error PyError.rateLimitError : Except PyError Nat))
    (fun _ => PyError.rateLimitError) (by decide) (by decide) (fun k _ => rfl)
  exact ⟨by decide, h.2.1⟩

/-- C5: with a configured per-minute ceiling m ≥ 1 (and no daily ceiling in
play), the in-memory rate-limit check reads a minute count equal to exactly
the recorded entries with timestamp in [now − 60, now] (older entries are
purged before the count is read), returns false precisely once that count
has reached m — so it returns true again once enough entries fall outside
the window — and an unset ceiling means unlimited. -/
theorem minute_window_rate_limit (t : UsageTracker) (config : ProviderConfig)
    (now : ℤ) (m : Nat) (hm : config.requests_per_minute = some m) (hm0 : 0 < m)
    (hday : config.requests_per_day = none)
    (hsorted : t.minute_requests.Pairwise (· ≤ ·))
    (hle : ∀ x ∈ t.minute_requests, x ≤ now) :
    ((t.get_counts now).2.1 =
        (t.minute_requests.filter
          (fun x => decide (now - 60 ≤ x) && decide (x ≤ now))).length) ∧
      ((check_rate_limit_memory t config now).2 = false ↔
        m ≤ (t.minute_requests.filter
          (fun x => decide (now - 60 ≤ x) && decide (x ≤ now))).length) ∧
      (∀ config2 : ProviderConfig, config2.requests_per_minute = none →
        config2.requests_per_day = none →
        (check_rate_limit_memory t config2 now).2 = true) := by
  have hfil := dropOld_eq_filter 60 now t.minute_requests hsorted hle
  have hmneq : m ≠ 0 := by omega
  refine ⟨?_, ?_, ?_⟩
  · unfold UsageTracker.get_counts UsageTracker.cleanup_old_requests
    simp only [hfil]
  · have hkey : (check_rate_limit_memory t config now).2 =
        !(decide (m ≤ (dropOld 60 now t.minute_requests).length)) := by
      unfold check_rate_limit_memory UsageTracker.get_counts
        UsageTracker.cleanup_old_requests
      by_cases hc : m ≤ (dropOld 60 now t.minute_requests).length
      · simp [hm, hday, limitReached, hmneq, hc]
      · simp [hm, hday, limitReached, hmneq, hc]
    rw [hkey, ← hfil]
    simp
  · intro config2 h1 h2
    simp [check_rate_limit_memory, limitReached, h1, h2]

theorem minute_window_rate_limit_witness :
    (cfgTwo.requests_per_minute = some 2) ∧
      (cfgTwo.requests_per_day = none) ∧
      ((⟨[10, 30], [10, 30], none⟩ : UsageTracker).minute_requests.Pairwise (· ≤ ·)) ∧
      ((UsageTracker.get_counts ⟨[10, 30], [10, 30], none⟩ 50).2.1 =
        (([10, 30] : List ℤ).filter
          (fun x => decide ((50 : ℤ) - 60 ≤ x) && decide (x ≤ (50 : ℤ)))).length) ∧
      ((check_rate_limit_memory ⟨[10, 30], [10, 30], none⟩ cfgTwo 50).2 = false ↔
        2 ≤ (([10, 30] : List ℤ).filter
          (fun x => decide ((50 : ℤ) - 60 ≤ x) && decide (x ≤ (50 : ℤ)))).length) := by
  have h := minute_window_rate_limit ⟨[10, 30], [10, 30], none⟩ cfgTwo 50 2 rfl
    (by decide) rfl (by decide) (by decide)
  exact ⟨rfl, rfl, by decide, h.1, h.2.1⟩

/-- C6 counterexample: the in-memory rate-limit check does mutate the
tracked state — with a stale entry in the windows, the tracker after the
check differs from the tracker before it (the purge removed the entry). -/
theorem check_rate_limit_memory_mutates :
    (check_rate_limit_memory ⟨[0], [0], none⟩ cfgGroq 100).1 ≠
      (⟨[0], [0], none⟩ : UsageTracker) := by
  decide

/-- C6 (amended): the rate-limit check records no usage and leaves the
failed-until marker untouched; its only state change is purging entries
already outside the tracking windows (the resulting windows are suffixes of
the originals), which cannot change the counts read at the same or any
later time. -/
theorem check_rate_limit_memory_observational (t : UsageTracker)
    (config : ProviderConfig) (now : ℤ) :
    ((check_rate_limit_memory t config now).1.failed_until = t.failed_until) ∧
      (∃ pre, t.minute_requests =
        pre ++ (check_rate_limit_memory t config now).1.minute_requests) ∧
      (∃ pre, t.day_requests =
        pre ++ (check_rate_limit_memory t config now).1.day_requests) ∧
      (∀ later : ℤ, now ≤ later →
        ((check_rate_limit_memory t config now).1.get_counts later).2 =
          (t.get_counts later).2) := by
  rw [check_rate_limit_memory_fst]
  refine ⟨rfl, ?_, ?_, ?_⟩
  · exact dropOld_suffix 60 now t.minute_requests
  · exact dropOld_suffix 86400 now t.day_requests
  · intro later hlater
    unfold UsageTracker.get_counts UsageTracker.cleanup_old_requests
    simp only [dropOld_dropOld _ now later hlater]

theorem check_rate_limit_memory_observational_witness :
    ((check_rate_limit_memory ⟨[0], [0], none⟩ cfgGroq 100).1.failed_until = none) ∧
      ((100 : ℤ) ≤ 200) ∧
      ((check_rate_limit_memory ⟨[0], [0], none⟩ cfgGroq 100).1.get_counts 200).2 =
        (UsageTracker.get_counts ⟨[0], [0], none⟩ 200).2 := by
  have h := check_rate_limit_memory_observational ⟨[0], [0], none⟩ cfgGroq 100
  exact ⟨h.1, by decide, h.2.2.2 200 (by decide)⟩

/-- C7: when every operation of the backing Redis connection raises, each of
the four shared-store operations returns normally and performs exactly the
in-memory variant's logic on the backup store for that call (the connection
itself is left as it was); no error propagates to the caller.  The
rate-limit check and usage increment consult the connection whenever a
per-minute ceiling is configured. -/
theorem redis_fallback_on_error (rc : RedisClient) (ms : InMemoryStore)
    (provider : Provider) (config : ProviderConfig) (now : ℤ) (duration : Nat)
    (hget : ∀ k, rc.get k = .error ())
    (hincr : ∀ k n, rc.incrExpire k n = .error ())
    (hsetex : ∀ k d v, rc.setex k d v = .error ())
    (hrpm : limitTruthy config.requests_per_minute = true) :
    (RedisStore.check_rate_limit ⟨rc, ms⟩ provider config now =
        (⟨rc, (mem_check_rate_limit ms provider config now).1⟩,
         (mem_check_rate_limit ms provider config now).2)) ∧
      (RedisStore.increment_usage ⟨rc, ms⟩ provider config now =
        ⟨rc, mem_increment_usage ms provider now⟩) ∧
      (RedisStore.mark_provider_failed ⟨rc, ms⟩ provider duration now =
        ⟨rc, mem_mark_provider_failed ms provider duration now⟩) ∧
      (RedisStore.is_provider_failed ⟨rc, ms⟩ provider now =
        (⟨rc, (mem_is_provider_failed ms provider now).1⟩,
         (mem_is_provider_failed ms provider now).2)) := by
  refine ⟨?_, ?_, ?_, ?_⟩
  · simp [RedisStore.check_rate_limit, redisCheckBody, hrpm, hget]
  · simp [RedisStore.increment_usage, redisIncrBody, hrpm, hincr]
  · simp [RedisStore.mark_provider_failed, hsetex]
  · simp [RedisStore.is_provider_failed, hget]

theorem redis_fallback_on_error_witness :
    (failingRedis.get (redisKey .groq .rpm) = .error ()) ∧
      (failingRedis.setex (redisKey .groq .failedKey) 60 1 = .error ()) ∧
      (limitTruthy cfgGroq.requests_per_minute = true) ∧
      (RedisStore.increment_usage ⟨failingRedis, ⟨[]⟩⟩ .groq cfgGroq 0 =
        ⟨failingRedis, mem_increment_usage ⟨[]⟩ .groq 0⟩) ∧
      (RedisStore.is_provider_failed ⟨failingRedis, ⟨[]⟩⟩ .groq 0 =
        (⟨failingRedis, (mem_is_provider_failed ⟨[]⟩ .groq 0).1⟩,
         (mem_is_provider_failed ⟨[]⟩ .groq 0).2)) := by
  have h := redis_fallback_on_error failingRedis ⟨[]⟩ .groq cfgGroq 0 60
    (fun _ => rfl) (fun _ _ => rfl) (fun _ _ _ => rfl) (by decide)
  exact ⟨rfl, rfl, by decide, h.2.1, h.2.2.2⟩

theorem get_usage_stats_redis (providers : List ProviderConfig) (rs : RedisStore)
    (now : ℤ) : get_usage_stats providers (Store.redis rs) now = [] := by
  unfold get_usage_stats
  suffices h : ∀ acc : List (String × UsageStats),
      providers.foldl
        (fun stats config =>
          match Store.redis rs with
          | .mem s => dictInsert config.name.value (usage_stats_entry s config now) stats
          | .redis _ => stats) acc = acc from h []
  intro acc
  induction providers generalizing acc with
  | nil => rfl
  | cons c cs ih => exact ih acc

theorem dictInsert_not_mem {α : Type} (key : String) (val : α)
    (l : List (String × α)) (h : key ∉ l.map Prod.fst) :
    dictInsert key val l = l ++ [(key, val)] := by
  induction l with
  | nil => rfl
  | cons p rest ih =>
    simp only [List.map_cons, List.mem_cons] at h
    push_neg at h
    unfold dictInsert
    rw [if_neg (by exact fun hc => h.1 hc.symm)]
    rw [ih h.2]
    rfl

theorem foldl_stats_eq_map (ms : InMemoryStore) (now : ℤ) :
    ∀ (l : List ProviderConfig) (acc : List (String × UsageStats)),
      ((l.map (fun p => p.name.value)).Nodup) →
      (∀ c ∈ l, c.name.value ∉ acc.map Prod.fst) →
      l.foldl
          (fun stats config =>
            dictInsert config.name.value (usage_stats_entry ms config now) stats) acc =
        acc ++ l.map (fun config => (config.name.value, usage_stats_entry ms config now)) := by
  intro l
  induction l with
  | nil => intro acc _ _; simp
  | cons c cs ih =>
    intro acc hnd hdisj
    simp only [List.map_cons, List.nodup_cons] at hnd
    have hc : c.name.value ∉ acc.map Prod.fst := hdisj c (List.mem_cons_self c cs)
    simp only [List.foldl_cons]
    rw [dictInsert_not_mem c.name.value _ acc hc]
    rw [ih (acc ++ [(c.name.value, usage_stats_entry ms c now)]) hnd.2 ?_]
    · simp
    · intro c' hc'
      simp only [List.map_append, List.mem_append, List.map_cons, List.map_nil]
      push_neg
      constructor
      · exact hdisj c' (List.mem_cons_of_mem c hc')
      · have : c'.name.value ∈ cs.map (fun p => p.name.value) :=
          List.mem_map_of_mem (fun p => p.name.value) hc'
        intro hmem
        simp only [List.mem_singleton] at hmem
        exact hnd.1 (by rw [← hmem]; exact this)

/-- C9 counterexample: with the Redis-backed store variant in use, the
usage-stats snapshot is empty even though a provider is configured, so it
does not contain an entry for every configured provider regardless of the
store variant. -/
theorem get_usage_stats_redis_missing_entry :
    (get_usage_stats [cfgGroq] (Store.redis ⟨failingRedis, ⟨[]⟩⟩) 0 = []) ∧
      ¬ (∃ s, (cfgGroq.name.value, s) ∈
          get_usage_stats [cfgGroq] (Store.redis ⟨failingRedis, ⟨[]⟩⟩) 0) := by
  have h : get_usage_stats [cfgGroq] (Store.redis ⟨failingRedis, ⟨[]⟩⟩) 0 = [] := rfl
  refine ⟨h, ?_⟩
  rintro ⟨s, hs⟩
  rw [h] at hs
  exact List.not_mem_nil _ hs

/-- C9 (amended): the provider-identifier list contains every configured
provider's identifier in order, for either store variant; the usage
snapshot has one entry per configured provider — carrying that provider's
purged minute count, day count and failed flag — when the in-memory store
is in use, and is empty when the Redis-backed store is in use. -/
theorem introspection_characterization (providers : List ProviderConfig)
    (now : ℤ) :
    (get_available_providers providers = providers.map (fun p => p.name.value)) ∧
      (∀ rs : RedisStore, get_usage_stats providers (Store.redis rs) now = []) ∧
      (∀ ms : InMemoryStore,
        (providers.map (fun p => p.name.value)).Nodup →
        get_usage_stats providers (Store.mem ms) now =
          providers.map
            (fun config => (config.name.value, usage_stats_entry ms config now))) := by
  refine ⟨rfl, fun rs => get_usage_stats_redis providers rs now, ?_⟩
  intro ms hnd
  unfold get_usage_stats
  exact foldl_stats_eq_map ms now providers [] hnd (by simp)

theorem introspection_characterization_witness :
    ((([cfgGroq, cfgOpenai] : List ProviderConfig).map
        (fun p => p.name.value)).Nodup) ∧
      (get_available_providers [cfgGroq, cfgOpenai] = ["groq", "openai"]) ∧
      (get_usage_stats [cfgGroq, cfgOpenai] (Store.mem ⟨[]⟩) 0 =
        [("groq", usage_stats_entry ⟨[]⟩ cfgGroq 0),
         ("openai", usage_stats_entry ⟨[]⟩ cfgOpenai 0)]) := by
  have h := introspection_characterization [cfgGroq, cfgOpenai] 0
  exact ⟨by decide, h.1, h.2.2 ⟨[]⟩ (by decide)⟩
